import Mathlib

/-
  A shallow embedding of the typhon Response layer (src/response.go).

  Bytes are modelled as `List Nat`.  The body of a response is a tagged union:
  either the in-memory bufCloser buffer, a foreign stream (an arbitrary
  io.ReadCloser installed by a caller or received from a transport), or nil.
  Errors form a small inductive mirroring the distinctions the code makes:
  raw I/O errors, raw codec errors, and terrors errors (which carry a code, a
  message and an optional cause).
-/

namespace Typhon

/-- Errors: raw I/O errors, raw codec (json/proto) errors, and terrors errors
carrying a code string, a message and possibly a cause (`terror` with a cause,
`terrorNC` without one). -/
inductive Err where
  | ioErr (code : Nat)
  | codecErr (code : Nat)
  | terror (code : String) (msg : String) (cause : Err)
  | terrorNC (code : String) (msg : String)
deriving DecidableEq

/-- Is this a terrors error? -/
def Err.isTerror : Err → Bool
  | .terror .. => true
  | .terrorNC .. => true
  | _ => false

/-- The terrors error-wrapping collaborator.  Wrapping an existing terrors
error returns it unchanged; wrapping any other error produces a terrors error
with the given code whose cause is the original error. -/
def terrorsWrapWithCode (e : Err) (code : String) : Err :=
  if e.isTerror then e else .terror code "" e

/-- terrors.Wrap(err, nil): nil stays nil, anything else is wrapped with the
internal-service code. -/
def terrorsWrap (e : Option Err) : Option Err :=
  match e with
  | none => none
  | some e => some (terrorsWrapWithCode e "internal_service")

/-- Modelled from the spec: the Deferred buffer (the bufCloser type, defined
outside src/): an in-memory growable byte buffer; reads consume from the
front, Bytes views the unread portion, Write appends, and Close is an
idempotent no-op that does not erase buffered bytes.  The `closed` flag
records that Close was called; it does not affect reads or writes. -/
structure BufCloser where
  data : List Nat
  closed : Bool
deriving DecidableEq

/-- A foreign body stream: an arbitrary io.ReadCloser installed by a caller or
by transport receipt.  `contents` are the bytes it will deliver before EOF, or
before the read error when `readErr` is set; `writable` says whether the
stream also satisfies io.Writer, in which case writes append to `written`
unless `writeErr` is set (an erroring writer is modelled as writing nothing);
`closed` records that Close was called. -/
structure ForeignStream where
  contents : List Nat
  readErr : Option Err
  writable : Bool
  writeErr : Option Err
  written : List Nat
  closed : Bool
deriving DecidableEq

/-- The body field of the embedded http.Response: the bufCloser buffer, a
foreign stream, or nil. -/
inductive Body where
  | buf (bc : BufCloser)
  | stream (s : ForeignStream)
  | nilBody
deriving DecidableEq

/-- Whether Close has been called on the body. -/
def Body.closedFlag : Body → Bool
  | .buf bc => bc.closed
  | .stream s => s.closed
  | .nilBody => false

/-- The parts of the embedded http.Response that this layer touches. -/
structure HTTPResponse where
  statusCode : Int
  headers : List (String × String)
  contentLength : Int
  body : Body
deriving DecidableEq

/-- The parts of the originating Request that Response reads: its headers (for
Accept) and its context.  `context = none` models a nil context; otherwise the
inner value is the value stored under the WrapDownstreamErrors key when that
value is a string (`none` when the key is absent or holds a non-string). -/
structure Request where
  headers : List (String × String)
  context : Option (Option String)
deriving DecidableEq

/-- Response: wraps an optional http.Response together with the terminal error
and the back-reference to the originating request. -/
structure Response where
  resp : Option HTTPResponse
  error : Option Err
  request : Option Request
deriving DecidableEq

/-- http.Header.Get: first value for the key, or the empty string. -/
def headerGet (hs : List (String × String)) (k : String) : String :=
  match hs.find? (fun p => p.1 == k) with
  | some p => p.2
  | none => ""

/-- http.Header.Set: replace all values for the key with the single value. -/
def headerSet (hs : List (String × String)) (k v : String) : List (String × String) :=
  (k, v) :: hs.filter (fun p => p.1 != k)

/-- Does the first character list start with the second? -/
def startsWith : List Char → List Char → Bool
  | _, [] => true
  | [], _ :: _ => false
  | a :: as, b :: bs => a == b && startsWith as bs

/-- Does the first character list contain the second as a contiguous run? -/
def containsSub : List Char → List Char → Bool
  | [], needle => needle.isEmpty
  | a :: as, needle => startsWith (a :: as) needle || containsSub as needle

/-- strings.Contains on the underlying character lists. -/
def strContains (s sub : String) : Bool :=
  containsSub s.toList sub.toList

/-- Modelled from the spec: the fixed chunk threshold byte-count constant
(spec section 6); the constant itself is defined outside src/.  Crossing it
switches content length to -1. -/
def chunkThreshold : Int := 5 * 1024 * 1024

/-- newHTTPResponse: status code as given, fresh small header map, content
length 0, and a fresh empty bufCloser as the body (the request argument only
feeds the HTTP protocol version fields, which this layer never reads back). -/
def newHTTPResponse (statusCode : Int) : HTTPResponse :=
  { statusCode := statusCode
    headers := []
    contentLength := 0
    body := .buf { data := [], closed := false } }

/-- NewResponseWithCode constructs a Response with the given status code. -/
def NewResponseWithCode (req : Request) (statusCode : Int) : Response :=
  { request := some req, error := none, resp := some (newHTTPResponse statusCode) }

/-- NewResponse constructs a Response with status code 200. -/
def NewResponse (req : Request) : Response :=
  NewResponseWithCode req 200

/-- The content-length accounting at the end of Response.Write: if the length
is known, add the written count, and switch to -1 once the running total
reaches the chunk threshold. -/
def contentLengthAfterWrite (cl : Int) (n : Nat) : Int :=
  if 0 ≤ cl then
    if chunkThreshold ≤ cl + n then -1 else cl + n
  else cl

/-- Result of Response.Write: the written count, the error, and the final
state of a foreign stream that was drained and detached from the body, when
one was (its handle is otherwise lost to the caller). -/
structure WriteOut where
  n : Nat
  err : Option Err
  detached : Option ForeignStream
deriving DecidableEq

/-- Response.Write on the underlying http.Response (after the nil check).
Mirrors the type switch on the body: a bufCloser or a writable foreign stream
is written to directly; a non-writable body is first drained into a fresh
bufCloser which then replaces it, the drained stream being closed; a drain
error is returned with zero written and without installing the buffer.  On
success the content-length accounting runs. -/
def writeH (h : HTTPResponse) (b : List Nat) : WriteOut × HTTPResponse :=
  match h.body with
  | .buf bc =>
      let h2 := { h with body := .buf { bc with data := bc.data ++ b } }
      ({ n := b.length, err := none, detached := none },
       { h2 with contentLength := contentLengthAfterWrite h2.contentLength b.length })
  | .stream s =>
      if s.writable then
        match s.writeErr with
        | some e => ({ n := 0, err := some e, detached := none }, h)
        | none =>
            let h2 := { h with body := .stream { s with written := s.written ++ b } }
            ({ n := b.length, err := none, detached := none },
             { h2 with contentLength := contentLengthAfterWrite h2.contentLength b.length })
      else
        match s.readErr with
        | some e =>
            ({ n := 0, err := some e, detached := none },
             { h with body := .stream { s with contents := [] } })
        | none =>
            let h2 := { h with body := .buf { data := s.contents ++ b, closed := false } }
            ({ n := b.length, err := none,
               detached := some { s with contents := [], closed := true } },
             { h2 with contentLength := contentLengthAfterWrite h2.contentLength b.length })
  | .nilBody =>
      let h2 := { h with body := .buf { data := b, closed := false } }
      ({ n := b.length, err := none, detached := none },
       { h2 with contentLength := contentLengthAfterWrite h2.contentLength b.length })

/-- Response.Write: lazily construct the default 200 shell when the underlying
response is nil, then write through `writeH`. -/
def write (r : Response) (b : List Nat) : WriteOut × Response :=
  let h := match r.resp with
    | none => newHTTPResponse 200
    | some h0 => h0
  let (o, h2) := writeH h b
  (o, { r with resp := some h2 })

/-- Result of reading the body: the bytes together with any read error, or a
marker for the nil-dereference panic of the Go code. -/
inductive BBResult where
  | ok (bytes : List Nat) (err : Option Err)
  | panicked
deriving DecidableEq

/-- Output of BodyBytes: the read result, the updated Response, and the final
state of a foreign stream that was detached from the body, when one was. -/
structure BBOut where
  result : BBResult
  r : Response
  detached : Option ForeignStream
deriving DecidableEq

/-- Response.BodyBytes.  consume = true: ReadAll the body (returning the
delivered bytes together with any read error) and unconditionally Close it via
the deferred call.  consume = false: a bufCloser body is viewed directly; any
other body is read through a TeeReader that duplicates the delivered bytes
into a fresh bufCloser, which is installed as the new body, and the original
stream is closed.  A nil underlying response or nil body panics in Go, which
the `panicked` marker records. -/
def bodyBytes (r : Response) (consume : Bool) : BBOut :=
  match r.resp with
  | none => { result := .panicked, r := r, detached := none }
  | some h =>
    if consume then
      match h.body with
      | .buf bc =>
          { result := .ok bc.data none
            r := { r with resp := some { h with body := .buf { data := [], closed := true } } }
            detached := none }
      | .stream s =>
          { result := .ok s.contents s.readErr
            r := { r with resp := some { h with body := .stream { s with contents := [], closed := true } } }
            detached := none }
      | .nilBody => { result := .panicked, r := r, detached := none }
    else
      match h.body with
      | .buf bc =>
          { result := .ok bc.data none, r := r, detached := none }
      | .stream s =>
          { result := .ok s.contents s.readErr
            r := { r with resp := some { h with body := .buf { data := s.contents, closed := false } } }
            detached := some { s with contents := [], closed := true } }
      | .nilBody =>
          { result := .panicked
            r := { r with resp := some { h with body := .buf { data := [], closed := false } } }
            detached := none }

/-- A decode target: whether it satisfies proto.Message, and the outcomes of
the two black-box codecs on given body bytes. -/
structure DecodeTarget where
  isProtoMessage : Bool
  protoUnmarshal : List Nat → Option Err
  jsonUnmarshal : List Nat → Option Err

/-- Output of Decode: the returned error and the updated Response, or the
panic marker. -/
inductive DecodeOut where
  | ok (err : Option Err) (r : Response)
  | panicked

/-- The error returned by Decode. -/
def DecodeOut.errOf : DecodeOut → Option Err
  | .ok e _ => e
  | .panicked => none

/-- The error field of the Response after Decode. -/
def DecodeOut.respErrorOf : DecodeOut → Option Err
  | .ok _ r => r.error
  | .panicked => none

/-- The Response after Decode. -/
def DecodeOut.respOf (fallback : Response) : DecodeOut → Response
  | .ok _ r => r
  | .panicked => fallback

/-- The headers of the underlying response, empty when it is nil. -/
def respHeaders (r : Response) : List (String × String) :=
  match r.resp with
  | some h => h.headers
  | none => []

/-- Response.Decode.  A recorded error short-circuits (optionally rewrapped
when the originating request carries a non-empty string under the
WrapDownstreamErrors context key); a nil underlying response records and
returns a no-body internal error; otherwise the body is consumed via
BodyBytes(true), a read error is rewrapped with the bad-response code and
stored, and the bytes are dispatched on Content-Type: the binary media types
require a proto.Message target (the type-mismatch internal error is returned
directly), anything else goes to the json codec; codec errors are stored and
returned. -/
def decode (r : Response) (v : DecodeTarget) : DecodeOut :=
  match r.error with
  | some e =>
      match r.request with
      | some req =>
          match req.context with
          | some ctx =>
              match ctx with
              | some s =>
                  if s ≠ "" then
                    .ok (some (.terror "internal_service.downstream" "Downstream request error" e)) r
                  else .ok (some e) r
              | none => .ok (some e) r
          | none => .ok (some e) r
      | none => .ok (some e) r
  | none =>
    match r.resp with
    | none =>
        let e := Err.terrorNC "internal_service" "Response has no body"
        .ok (some e) { r with error := some e }
    | some _ =>
      let o := bodyBytes r true
      match o.result with
      | .panicked => .panicked
      | .ok b berr =>
        match berr with
        | some e =>
            let e2 := terrorsWrapWithCode e "bad_response"
            .ok (some e2) { o.r with error := some e2 }
        | none =>
            let ct := headerGet (respHeaders o.r) "Content-Type"
            if ct = "application/octet-stream" ∨ ct = "application/x-google-protobuf" ∨
                ct = "application/protobuf" then
              if v.isProtoMessage then
                match v.protoUnmarshal b with
                | some e => .ok (some e) { o.r with error := some e }
                | none => .ok none o.r
              else
                .ok (some (.terrorNC "internal_service.invalid_type" "could not decode proto message")) o.r
            else
              match v.jsonUnmarshal b with
              | some e => .ok (some e) { o.r with error := some e }
              | none => .ok none o.r

deriving instance DecidableEq for Except

/-- A proto.Message as Encode sees it: the outcome of proto.Marshal on it. -/
structure ProtoMessage where
  marshal : Except Err (List Nat)
deriving DecidableEq

/-- The underlying response, or the freshly constructed default 200 shell when
it is nil. -/
def respOrNew (r : Response) : HTTPResponse :=
  match r.resp with
  | none => newHTTPResponse 200
  | some h => h

/-- Response.EncodeAsProtobuf: marshal the message; on failure record the
wrapped error and stop.  On success write the bytes through the normal Write
path, unconditionally overwrite the error field with the wrapped write error,
set Content-Type to application/protobuf and force the content length to the
written count. -/
def encodeAsProtobuf (r : Response) (m : ProtoMessage) : Response :=
  match m.marshal with
  | .error e => { r with error := terrorsWrap (some e) }
  | .ok b =>
      let (o, h2) := writeH (respOrNew r) b
      let h3 := { h2 with
        headers := headerSet h2.headers "Content-Type" "application/protobuf"
        contentLength := (o.n : Int) }
      { r with resp := some h3, error := terrorsWrap o.err }

/-- How a value passed to Encode matches the type switch: not a reader at
all, an io.ReadCloser, or a plain io.Reader (the latter gets wrapped in
ioutil.NopCloser, which only turns Close into a no-op). -/
inductive ReaderKind where
  | notReader
  | readCloser (s : ForeignStream)
  | reader (s : ForeignStream)
deriving DecidableEq

/-- A value passed to Encode: whether it satisfies proto.Message (and then its
marshal outcome), whether it satisfies json.Marshaler, how it matches the
reader cases, and the outcome of streaming it through the json encoder (the
encoded bytes, or the marshal error). -/
structure EncodeValue where
  asProto : Option ProtoMessage
  isJSONMarshaler : Bool
  readerKind : ReaderKind
  jsonEnc : Except Err (List Nat)

/-- Apply a function to the underlying response when present. -/
def mapResp (r : Response) (f : HTTPResponse → HTTPResponse) : Response :=
  { r with resp := r.resp.map f }

/-- The json branch of Encode: stream the value through the json encoder into
the body; on failure (of the codec or of the underlying write) record the
wrapped error and stop; on success set Content-Type to application/json. -/
def encodeJSON (r : Response) (v : EncodeValue) : Response :=
  match v.jsonEnc with
  | .error e => { r with error := terrorsWrap (some e) }
  | .ok bs =>
      let (o, r2) := write r bs
      match o.err with
      | some e => { r2 with error := terrorsWrap (some e) }
      | none =>
          mapResp r2 (fun h => { h with headers := headerSet h.headers "Content-Type" "application/json" })

/-- The acceptsProtobuf check of Encode: the originating request is present
and its Accept header contains the application/protobuf token. -/
def acceptsProtobuf (r : Response) : Bool :=
  match r.request with
  | some req => strContains (headerGet req.headers "Accept") "application/protobuf"
  | none => false

/-- The negotiation tail of Encode: prefer the protobuf path when the
originating request accepts application/protobuf and the value is a
proto.Message; otherwise encode as json. -/
def encodeNegotiate (r : Response) (v : EncodeValue) : Response :=
  match v.asProto with
  | some m => if acceptsProtobuf r then encodeAsProtobuf r m else encodeJSON r v
  | none => encodeJSON r v

/-- Response.Encode: lazily construct the default 200 shell, then run the type
switch: a proto.Message or json.Marshaler falls through to negotiation; an
io.ReadCloser, or a plain io.Reader wrapped in a no-op closer, is adopted
directly as the body with content length -1 and nothing else happens;
any other value falls through to negotiation. -/
def encode (r : Response) (v : EncodeValue) : Response :=
  let r := match r.resp with
    | none => { r with resp := some (newHTTPResponse 200) }
    | some _ => r
  if v.asProto.isSome || v.isJSONMarshaler then
    encodeNegotiate r v
  else
    match v.readerKind with
    | .readCloser s =>
        mapResp r (fun h => { h with body := .stream s, contentLength := -1 })
    | .reader s =>
        mapResp r (fun h => { h with body := .stream s, contentLength := -1 })
    | .notReader => encodeNegotiate r v

/-- Iterated Response.Write, discarding the per-call results. -/
def writeAll (r : Response) (bs : List (List Nat)) : Response :=
  match bs with
  | [] => r
  | b :: rest => writeAll (write r b).2 rest

/-! Helper lemmas shared by the claim theorems. -/

lemma headerGet_headerSet (hs : List (String × String)) (k v : String) :
    headerGet (headerSet hs k v) k = v := by
  simp [headerGet, headerSet]

lemma writeH_headers (h : HTTPResponse) (b : List Nat) :
    (writeH h b).2.headers = h.headers := by
  cases hbody : h.body with
  | buf bc => simp [writeH, hbody]
  | nilBody => simp [writeH, hbody]
  | stream s =>
      cases hw : s.writable with
      | true =>
          cases hwe : s.writeErr with
          | some e => simp [writeH, hbody, hw, hwe]
          | none => simp [writeH, hbody, hw, hwe]
      | false =>
          cases hre : s.readErr with
          | some e => simp [writeH, hbody, hw, hre]
          | none => simp [writeH, hbody, hw, hre]

lemma writeH_ok_n (h : HTTPResponse) (b : List Nat)
    (hok : (writeH h b).1.err = none) : (writeH h b).1.n = b.length := by
  cases hbody : h.body with
  | buf bc => simp [writeH, hbody]
  | nilBody => simp [writeH, hbody]
  | stream s =>
      cases hw : s.writable with
      | true =>
          cases hwe : s.writeErr with
          | some e => simp [writeH, hbody, hw, hwe] at hok
          | none => simp [writeH, hbody, hw, hwe]
      | false =>
          cases hre : s.readErr with
          | some e => simp [writeH, hbody, hw, hre] at hok
          | none => simp [writeH, hbody, hw, hre]

lemma writeH_ok_contentLength (h : HTTPResponse) (b : List Nat)
    (hok : (writeH h b).1.err = none) :
    (writeH h b).2.contentLength = contentLengthAfterWrite h.contentLength b.length := by
  cases hbody : h.body with
  | buf bc => simp [writeH, hbody]
  | nilBody => simp [writeH, hbody]
  | stream s =>
      cases hw : s.writable with
      | true =>
          cases hwe : s.writeErr with
          | some e => simp [writeH, hbody, hw, hwe] at hok
          | none => simp [writeH, hbody, hw, hwe]
      | false =>
          cases hre : s.readErr with
          | some e => simp [writeH, hbody, hw, hre] at hok
          | none => simp [writeH, hbody, hw, hre]

lemma writeH_contentLength_neg (h : HTTPResponse) (b : List Nat)
    (hcl : h.contentLength = -1) : (writeH h b).2.contentLength = -1 := by
  cases hbody : h.body with
  | buf bc => simp [writeH, hbody, contentLengthAfterWrite, hcl]
  | nilBody => simp [writeH, hbody, contentLengthAfterWrite, hcl]
  | stream s =>
      cases hw : s.writable with
      | true =>
          cases hwe : s.writeErr with
          | some e => simp [writeH, hbody, hw, hwe, hcl]
          | none => simp [writeH, hbody, hw, hwe, contentLengthAfterWrite, hcl]
      | false =>
          cases hre : s.readErr with
          | some e => simp [writeH, hbody, hw, hre, hcl]
          | none => simp [writeH, hbody, hw, hre, contentLengthAfterWrite, hcl]

lemma write_resp_eq (r : Response) (h : HTTPResponse) (b : List Nat) (hr : r.resp = some h) :
    write r b = ((writeH h b).1, { r with resp := some (writeH h b).2 }) := by
  simp [write, hr]

lemma writeAll_unknown_length (bs : List (List Nat)) (r : Response) (h : HTTPResponse)
    (hr : r.resp = some h) (hcl : h.contentLength = -1) :
    ∃ h3, (writeAll r bs).resp = some h3 ∧ h3.contentLength = -1 := by
  induction bs generalizing r h with
  | nil => exact ⟨h, by simpa [writeAll] using hr, hcl⟩
  | cons b rest ih =>
      have hstep : (write r b).2.resp = some (writeH h b).2 := by
        rw [write_resp_eq r h b hr]
      have hneg := writeH_contentLength_neg h b hcl
      simpa [writeAll] using ih (write r b).2 (writeH h b).2 hstep hneg

/-! The claim theorems. -/

/-- C1: For every Response whose body holds some bytes, BodyBytes with
consume = false called twice in succession returns the identical byte sequence
both times, and after each call the body supports being read again: a
bufCloser body is viewed directly and the Response is left unchanged, while a
foreign stream has its bytes duplicated into a fresh bufCloser that is
installed as the new body, the foreign stream itself being closed. -/
theorem bodyBytes_nonconsume_repeatable (r : Response) (h : HTTPResponse)
    (hr : r.resp = some h) (hb : h.body ≠ Body.nilBody) :
    ∃ bs e1 e2,
      (bodyBytes r false).result = BBResult.ok bs e1 ∧
      (bodyBytes (bodyBytes r false).r false).result = BBResult.ok bs e2 ∧
      (∀ bc, h.body = Body.buf bc →
        bs = bc.data ∧ (bodyBytes r false).r = r) ∧
      (∀ s, h.body = Body.stream s →
        bs = s.contents ∧
        (bodyBytes r false).r =
          { r with resp := some { h with body := Body.buf { data := s.contents, closed := false } } } ∧
        (bodyBytes r false).detached = some { s with contents := [], closed := true }) := by
  cases hbody : h.body with
  | nilBody => exact absurd hbody hb
  | buf bc =>
      refine ⟨bc.data, none, none, ?_, ?_, ?_, ?_⟩
      · simp [bodyBytes, hr, hbody]
      · simp [bodyBytes, hr, hbody]
      · intro bc2 hbc
        cases hbc
        exact ⟨rfl, by simp [bodyBytes, hr, hbody]⟩
      · intro s hs
        cases hs
  | stream s =>
      refine ⟨s.contents, s.readErr, none, ?_, ?_, ?_, ?_⟩
      · simp [bodyBytes, hr, hbody]
      · simp [bodyBytes, hr, hbody]
      · intro bc hbc
        cases hbc
      · intro s2 hs
        cases hs
        refine ⟨rfl, ?_, ?_⟩
        · simp [bodyBytes, hr, hbody]
        · simp [bodyBytes, hr, hbody]

def w1S : ForeignStream :=
  { contents := [1, 2, 3], readErr := none, writable := false, writeErr := none,
    written := [], closed := false }

def w1H : HTTPResponse :=
  { statusCode := 200, headers := [], contentLength := 3, body := .stream w1S }

def w1R : Response := { resp := some w1H, error := none, request := none }

theorem bodyBytes_nonconsume_repeatable_witness :
    (w1R.resp = some w1H ∧ w1H.body ≠ Body.nilBody) ∧
    (∃ bs e1 e2,
      (bodyBytes w1R false).result = BBResult.ok bs e1 ∧
      (bodyBytes (bodyBytes w1R false).r false).result = BBResult.ok bs e2 ∧
      (∀ bc, w1H.body = Body.buf bc →
        bs = bc.data ∧ (bodyBytes w1R false).r = w1R) ∧
      (∀ s, w1H.body = Body.stream s →
        bs = s.contents ∧
        (bodyBytes w1R false).r =
          { w1R with resp := some { w1H with body := Body.buf { data := s.contents, closed := false } } } ∧
        (bodyBytes w1R false).detached = some { s with contents := [], closed := true })) :=
  ⟨⟨rfl, by decide⟩, bodyBytes_nonconsume_repeatable w1R w1H rfl (by decide)⟩

/-- C10: For every Response with a non-nil body, BodyBytes with consume = true
returns the read result (bytes together with any read error) and the deferred
Close runs unconditionally after the read attempt, so the body is closed even
when reading it fails. -/
theorem bodyBytes_consume_closes (r : Response) (h : HTTPResponse)
    (hr : r.resp = some h) (hb : h.body ≠ Body.nilBody) :
    ∃ bs e h2,
      (bodyBytes r true).result = BBResult.ok bs e ∧
      (bodyBytes r true).r.resp = some h2 ∧
      h2.body.closedFlag = true ∧
      (∀ s e2, h.body = Body.stream s → s.readErr = some e2 →
        (bodyBytes r true).result = BBResult.ok s.contents (some e2) ∧
        h2.body = Body.stream { s with contents := [], closed := true }) := by
  cases hbody : h.body with
  | nilBody => exact absurd hbody hb
  | buf bc =>
      refine ⟨bc.data, none, { h with body := Body.buf { data := [], closed := true } },
        ?_, ?_, ?_, ?_⟩
      · simp [bodyBytes, hr, hbody]
      · simp [bodyBytes, hr, hbody]
      · simp [Body.closedFlag]
      · intro s e2 hs
        cases hs
  | stream s =>
      refine ⟨s.contents, s.readErr,
        { h with body := Body.stream { s with contents := [], closed := true } },
        ?_, ?_, ?_, ?_⟩
      · simp [bodyBytes, hr, hbody]
      · simp [bodyBytes, hr, hbody]
      · simp [Body.closedFlag]
      · intro s2 e2 hs hre
        cases hs
        rw [hre]
        exact ⟨by simp [bodyBytes, hr, hbody, hre], rfl⟩

def w10S : ForeignStream :=
  { contents := [4, 5], readErr := some (.ioErr 7), writable := false, writeErr := none,
    written := [], closed := false }

def w10H : HTTPResponse :=
  { statusCode := 200, headers := [], contentLength := 0, body := .stream w10S }

def w10R : Response := { resp := some w10H, error := none, request := none }

theorem bodyBytes_consume_closes_witness :
    (w10R.resp = some w10H ∧ w10H.body ≠ Body.nilBody) ∧
    (∃ bs e h2,
      (bodyBytes w10R true).result = BBResult.ok bs e ∧
      (bodyBytes w10R true).r.resp = some h2 ∧
      h2.body.closedFlag = true ∧
      (∀ s e2, w10H.body = Body.stream s → s.readErr = some e2 →
        (bodyBytes w10R true).result = BBResult.ok s.contents (some e2) ∧
        h2.body = Body.stream { s with contents := [], closed := true })) :=
  ⟨⟨rfl, by decide⟩, bodyBytes_consume_closes w10R w10H rfl (by decide)⟩

/-- C2: For every Response whose body is a foreign, non-writable stream,
Write drains the stream fully into a fresh bufCloser, closes the stream,
installs the buffer as the new body and appends the new bytes to it; when the
drain fails, Write returns the drain error with zero bytes written and the
buffer is not installed (the body is still the foreign stream, whose
deliverable bytes have been consumed and lost). -/
theorem write_foreign_nonwritable_drains (r : Response) (h : HTTPResponse) (s : ForeignStream)
    (b : List Nat) (hr : r.resp = some h) (hb : h.body = Body.stream s)
    (hw : s.writable = false) :
    (s.readErr = none →
      (write r b).1.err = none ∧
      (write r b).1.n = b.length ∧
      (∃ h2, (write r b).2.resp = some h2 ∧
        h2.body = Body.buf { data := s.contents ++ b, closed := false }) ∧
      (write r b).1.detached = some { s with contents := [], closed := true }) ∧
    (∀ e, s.readErr = some e →
      (write r b).1.err = some e ∧
      (write r b).1.n = 0 ∧
      (write r b).1.detached = none ∧
      (write r b).2.resp = some { h with body := Body.stream { s with contents := [] } }) := by
  constructor
  · intro hre
    have hx : (write r b).2.resp = some { h with
        body := Body.buf { data := s.contents ++ b, closed := false },
        contentLength := contentLengthAfterWrite h.contentLength b.length } := by
      simp [write, writeH, hr, hb, hw, hre]
    exact ⟨by simp [write, writeH, hr, hb, hw, hre],
           by simp [write, writeH, hr, hb, hw, hre],
           ⟨_, hx, rfl⟩,
           by simp [write, writeH, hr, hb, hw, hre]⟩
  · intro e hre
    refine ⟨?_, ?_, ?_, ?_⟩ <;>
      simp [write, writeH, hr, hb, hw, hre]

def w2S : ForeignStream :=
  { contents := [9, 9], readErr := none, writable := false, writeErr := none,
    written := [], closed := false }

def w2H : HTTPResponse :=
  { statusCode := 200, headers := [], contentLength := 0, body := .stream w2S }

def w2R : Response := { resp := some w2H, error := none, request := none }

theorem write_foreign_nonwritable_drains_witness :
    (w2R.resp = some w2H ∧ w2H.body = Body.stream w2S ∧ w2S.writable = false) ∧
    ((w2S.readErr = none →
      (write w2R [1]).1.err = none ∧
      (write w2R [1]).1.n = [1].length ∧
      (∃ h2, (write w2R [1]).2.resp = some h2 ∧
        h2.body = Body.buf { data := w2S.contents ++ [1], closed := false }) ∧
      (write w2R [1]).1.detached = some { w2S with contents := [], closed := true }) ∧
    (∀ e, w2S.readErr = some e →
      (write w2R [1]).1.err = some e ∧
      (write w2R [1]).1.n = 0 ∧
      (write w2R [1]).1.detached = none ∧
      (write w2R [1]).2.resp = some { w2H with body := Body.stream { w2S with contents := [] } })) :=
  ⟨⟨rfl, rfl, rfl⟩, write_foreign_nonwritable_drains w2R w2H w2S [1] rfl rfl rfl⟩

/-- C3: For every Response with known content length L and every byte slice B,
a successful Write whose running total stays below the chunk threshold sets
the content length to L plus the length of B, a successful Write whose
running total reaches or exceeds the threshold sets it to -1, and once the
content length is -1 no sequence of subsequent Write calls ever restores a
non-negative value. -/
theorem write_contentLength_accounting (r : Response) (h : HTTPResponse) (b : List Nat)
    (hr : r.resp = some h) (hL : 0 ≤ h.contentLength)
    (hok : (write r b).1.err = none) :
    (∃ h2, (write r b).2.resp = some h2 ∧
      (h.contentLength + b.length < chunkThreshold → h2.contentLength = h.contentLength + b.length) ∧
      (chunkThreshold ≤ h.contentLength + b.length → h2.contentLength = -1)) ∧
    (∀ r2 h2 bs, r2.resp = some h2 → h2.contentLength = -1 →
      ∃ h3, (writeAll r2 bs).resp = some h3 ∧ h3.contentLength = -1) := by
  constructor
  · have hok2 : (writeH h b).1.err = none := by
      rw [write_resp_eq r h b hr] at hok
      exact hok
    refine ⟨(writeH h b).2, ?_, ?_, ?_⟩
    · rw [write_resp_eq r h b hr]
    · intro hlt
      rw [writeH_ok_contentLength h b hok2, contentLengthAfterWrite, if_pos hL,
        if_neg (by omega)]
    · intro hge
      rw [writeH_ok_contentLength h b hok2, contentLengthAfterWrite, if_pos hL,
        if_pos (by omega)]
  · intro r2 h2 bs hr2 hcl
    exact writeAll_unknown_length bs r2 h2 hr2 hcl

def w3H : HTTPResponse :=
  { statusCode := 200, headers := [], contentLength := 10,
    body := .buf { data := [], closed := false } }

def w3R : Response := { resp := some w3H, error := none, request := none }

theorem write_contentLength_accounting_witness :
    (w3R.resp = some w3H ∧ 0 ≤ w3H.contentLength ∧ (write w3R [1, 2]).1.err = none) ∧
    ((∃ h2, (write w3R [1, 2]).2.resp = some h2 ∧
      (w3H.contentLength + ([1, 2] : List Nat).length < chunkThreshold →
        h2.contentLength = w3H.contentLength + ([1, 2] : List Nat).length) ∧
      (chunkThreshold ≤ w3H.contentLength + ([1, 2] : List Nat).length →
        h2.contentLength = -1)) ∧
    (∀ r2 h2 bs, r2.resp = some h2 → h2.contentLength = -1 →
      ∃ h3, (writeAll r2 bs).resp = some h3 ∧ h3.contentLength = -1)) :=
  ⟨⟨rfl, by decide, by decide⟩,
   write_contentLength_accounting w3R w3H [1, 2] rfl (by decide) (by decide)⟩

/-- C4: For every Response whose error field is set, Decode never reads the
body: the Response is returned unchanged, and the returned error is the
internal downstream error carrying the original error as its cause exactly
when the originating request has a context holding a non-empty string under
the WrapDownstreamErrors key, and the original error unchanged otherwise. -/
theorem decode_error_short_circuit (r : Response) (v : DecodeTarget) (e : Err)
    (he : r.error = some e) :
    decode r v = DecodeOut.ok (some (
      match r.request with
      | some req =>
          match req.context with
          | some (some s) =>
              if s = "" then e
              else Err.terror "internal_service.downstream" "Downstream request error" e
          | some none => e
          | none => e
      | none => e)) r := by
  unfold decode
  rw [he]
  cases hreq : r.request with
  | none => simp
  | some req =>
      cases hctx : req.context with
      | none => simp [hctx]
      | some ctx =>
          cases hcv : ctx with
          | none => simp [hctx, hcv]
          | some s =>
              by_cases hs : s = ""
              · simp [hctx, hcv, hs]
              · simp [hctx, hcv, hs]

def w4Req : Request := { headers := [], context := some (some "my-service") }

def w4R : Response :=
  { resp := some (newHTTPResponse 200), error := some (.ioErr 3), request := some w4Req }

def w4Tgt : DecodeTarget :=
  { isProtoMessage := false, protoUnmarshal := fun _ => none, jsonUnmarshal := fun _ => none }

theorem decode_error_short_circuit_witness :
    w4R.error = some (Err.ioErr 3) ∧
    decode w4R w4Tgt = DecodeOut.ok (some (
      match w4R.request with
      | some req =>
          match req.context with
          | some (some s) =>
              if s = "" then Err.ioErr 3
              else Err.terror "internal_service.downstream" "Downstream request error" (Err.ioErr 3)
          | some none => Err.ioErr 3
          | none => Err.ioErr 3
      | none => Err.ioErr 3)) w4R :=
  ⟨rfl, decode_error_short_circuit w4R w4Tgt (Err.ioErr 3) rfl⟩

def w5H : HTTPResponse :=
  { statusCode := 200, headers := [("Content-Type", "application/protobuf")],
    contentLength := 0, body := .buf { data := [], closed := false } }

def w5R : Response := { resp := some w5H, error := none, request := none }

def w5Tgt : DecodeTarget :=
  { isProtoMessage := false, protoUnmarshal := fun _ => none, jsonUnmarshal := fun _ => none }

/-- C5 counterexample: on a Response with binary Content-Type and a target
that does not satisfy proto.Message, Decode returns the type-mismatch
internal error but the error field of the Response stays nil: the returned
decode error is not stored. -/
theorem decode_type_mismatch_not_stored :
    (decode w5R w5Tgt).errOf =
      some (Err.terrorNC "internal_service.invalid_type" "could not decode proto message") ∧
    (decode w5R w5Tgt).respErrorOf = none :=
  ⟨rfl, rfl⟩

/-- C5 (amended): whenever Decode returns a non-nil error on a Response with
no previously recorded error, that error is also stored into the error field,
except for the type-mismatch error produced when the Content-Type is a binary
media type and the target does not satisfy proto.Message, which is returned
without being stored. -/
theorem decode_failure_stored_unless_type_mismatch (r : Response) (v : DecodeTarget) (e : Err)
    (h0 : r.error = none)
    (h1 : (decode r v).errOf = some e)
    (h2 : e ≠ Err.terrorNC "internal_service.invalid_type" "could not decode proto message") :
    (decode r v).respErrorOf = some e := by
  cases hresp : r.resp with
  | none =>
      have hdec : decode r v = DecodeOut.ok
          (some (Err.terrorNC "internal_service" "Response has no body"))
          { r with error := some (Err.terrorNC "internal_service" "Response has no body") } := by
        simp [decode, h0, hresp]
      rw [hdec] at h1
      simp [DecodeOut.errOf] at h1
      subst h1
      rw [hdec]
      simp [DecodeOut.respErrorOf]
  | some h =>
      cases hres : (bodyBytes r true).result with
      | panicked =>
          have hdec : decode r v = DecodeOut.panicked := by
            simp [decode, h0, hresp, hres]
          rw [hdec] at h1
          simp [DecodeOut.errOf] at h1
      | ok b berr =>
          cases berr with
          | some e0 =>
              have hdec : decode r v = DecodeOut.ok
                  (some (terrorsWrapWithCode e0 "bad_response"))
                  { (bodyBytes r true).r with error := some (terrorsWrapWithCode e0 "bad_response") } := by
                simp [decode, h0, hresp, hres]
              rw [hdec] at h1
              simp [DecodeOut.errOf] at h1
              subst h1
              rw [hdec]
              simp [DecodeOut.respErrorOf]
          | none =>
              by_cases hct : headerGet (respHeaders (bodyBytes r true).r) "Content-Type" =
                    "application/octet-stream" ∨
                  headerGet (respHeaders (bodyBytes r true).r) "Content-Type" =
                    "application/x-google-protobuf" ∨
                  headerGet (respHeaders (bodyBytes r true).r) "Content-Type" =
                    "application/protobuf"
              · cases hpm : v.isProtoMessage with
                | true =>
                    cases hpu : v.protoUnmarshal b with
                    | some e0 =>
                        have hdec : decode r v = DecodeOut.ok (some e0)
                            { (bodyBytes r true).r with error := some e0 } := by
                          simp [decode, h0, hresp, hres, if_pos hct, hpm, hpu]
                        rw [hdec] at h1
                        simp [DecodeOut.errOf] at h1
                        subst h1
                        rw [hdec]
                        simp [DecodeOut.respErrorOf]
                    | none =>
                        have hdec : decode r v = DecodeOut.ok none (bodyBytes r true).r := by
                          simp [decode, h0, hresp, hres, if_pos hct, hpm, hpu]
                        rw [hdec] at h1
                        simp [DecodeOut.errOf] at h1
                | false =>
                    have hdec : decode r v = DecodeOut.ok
                        (some (Err.terrorNC "internal_service.invalid_type" "could not decode proto message"))
                        (bodyBytes r true).r := by
                      simp [decode, h0, hresp, hres, if_pos hct, hpm]
                    rw [hdec] at h1
                    simp [DecodeOut.errOf] at h1
                    subst h1
                    exact absurd rfl h2
              · cases hju : v.jsonUnmarshal b with
                | some e0 =>
                    have hdec : decode r v = DecodeOut.ok (some e0)
                        { (bodyBytes r true).r with error := some e0 } := by
                      simp [decode, h0, hresp, hres, if_neg hct, hju]
                    rw [hdec] at h1
                    simp [DecodeOut.errOf] at h1
                    subst h1
                    rw [hdec]
                    simp [DecodeOut.respErrorOf]
                | none =>
                    have hdec : decode r v = DecodeOut.ok none (bodyBytes r true).r := by
                      simp [decode, h0, hresp, hres, if_neg hct, hju]
                    rw [hdec] at h1
                    simp [DecodeOut.errOf] at h1

def w5bH : HTTPResponse :=
  { statusCode := 200, headers := [], contentLength := 0,
    body := .buf { data := [1], closed := false } }

def w5bR : Response := { resp := some w5bH, error := none, request := none }

def w5bTgt : DecodeTarget :=
  { isProtoMessage := false, protoUnmarshal := fun _ => none,
    jsonUnmarshal := fun _ => some (.codecErr 1) }

theorem decode_failure_stored_unless_type_mismatch_witness :
    (w5bR.error = none ∧
     (decode w5bR w5bTgt).errOf = some (Err.codecErr 1) ∧
     Err.codecErr 1 ≠ Err.terrorNC "internal_service.invalid_type" "could not decode proto message") ∧
    (decode w5bR w5bTgt).respErrorOf = some (Err.codecErr 1) :=
  ⟨⟨rfl, rfl, by decide⟩,
   decode_failure_stored_unless_type_mismatch w5bR w5bTgt (Err.codecErr 1) rfl rfl (by decide)⟩

/-- C6: For every value that is a plain byte stream (an io.ReadCloser, or a
plain io.Reader wrapped in a no-op closer) and is neither a proto.Message nor
a json.Marshaler, Encode adopts the stream directly as the body, sets the
content length to -1, leaves the headers (hence the Content-Type header) and
the error field untouched, and a subsequent full drain of the body returns
exactly the bytes of the stream. -/
theorem encode_reader_adopted (r : Response) (v : EncodeValue) (s : ForeignStream)
    (hp : v.asProto = none) (hm : v.isJSONMarshaler = false)
    (hk : v.readerKind = ReaderKind.readCloser s ∨ v.readerKind = ReaderKind.reader s) :
    ∃ h2, (encode r v).resp = some h2 ∧
      h2.body = Body.stream s ∧
      h2.contentLength = -1 ∧
      h2.headers = (respOrNew r).headers ∧
      (encode r v).error = r.error ∧
      (s.readErr = none →
        (bodyBytes (encode r v) true).result = BBResult.ok s.contents none) := by
  have henc : encode r v =
      mapResp { r with resp := some (respOrNew r) }
        (fun h => { h with body := .stream s, contentLength := -1 }) := by
    cases hk with
    | inl hrc =>
        cases hresp : r.resp with
        | none => simp [encode, hp, hm, hrc, respOrNew, hresp]
        | some h =>
            simp [encode, hp, hm, hrc, respOrNew, hresp]
            rw [← hresp]
    | inr hrd =>
        cases hresp : r.resp with
        | none => simp [encode, hp, hm, hrd, respOrNew, hresp]
        | some h =>
            simp [encode, hp, hm, hrd, respOrNew, hresp]
            rw [← hresp]
  refine ⟨{ respOrNew r with body := .stream s, contentLength := -1 }, ?_, rfl, rfl, rfl, ?_, ?_⟩
  · rw [henc]
    simp [mapResp]
  · rw [henc]
    simp [mapResp]
  · intro hre
    have hx : (encode r v).resp = some { respOrNew r with body := .stream s, contentLength := -1 } := by
      rw [henc]
      simp [mapResp]
    simp [bodyBytes, hx, hre]

def w6S : ForeignStream :=
  { contents := [10, 20], readErr := none, writable := false, writeErr := none,
    written := [], closed := false }

def w6V : EncodeValue :=
  { asProto := none, isJSONMarshaler := false, readerKind := .readCloser w6S,
    jsonEnc := .ok [] }

def w6R : Response :=
  { resp := some (newHTTPResponse 200), error := none, request := none }

theorem encode_reader_adopted_witness :
    (w6V.asProto = none ∧ w6V.isJSONMarshaler = false ∧
     (w6V.readerKind = ReaderKind.readCloser w6S ∨ w6V.readerKind = ReaderKind.reader w6S)) ∧
    (∃ h2, (encode w6R w6V).resp = some h2 ∧
      h2.body = Body.stream w6S ∧
      h2.contentLength = -1 ∧
      h2.headers = (respOrNew w6R).headers ∧
      (encode w6R w6V).error = w6R.error ∧
      (w6S.readErr = none →
        (bodyBytes (encode w6R w6V) true).result = BBResult.ok w6S.contents none)) :=
  ⟨⟨rfl, rfl, Or.inl rfl⟩,
   encode_reader_adopted w6R w6V w6S rfl rfl (Or.inl rfl)⟩

/-- C7: EncodeAsProtobuf on marshal failure records the wrapped marshal error
and leaves everything else (in particular content length and headers)
untouched; on marshal success followed by a successful write it sets
Content-Type to application/protobuf and forces the content length to exactly
the number of bytes written (which on success is the full length of the
marshalled bytes), overriding the incremental accounting of Write. -/
theorem encodeAsProtobuf_contract (r : Response) (m : ProtoMessage) :
    (∀ e, m.marshal = Except.error e →
      encodeAsProtobuf r m = { r with error := some (terrorsWrapWithCode e "internal_service") }) ∧
    (∀ b, m.marshal = Except.ok b →
      (writeH (respOrNew r) b).1.err = none →
      (writeH (respOrNew r) b).1.n = b.length ∧
      ∃ h2, (encodeAsProtobuf r m).resp = some h2 ∧
        headerGet h2.headers "Content-Type" = "application/protobuf" ∧
        h2.contentLength = ((writeH (respOrNew r) b).1.n : Int)) := by
  constructor
  · intro e he
    simp [encodeAsProtobuf, he, terrorsWrap]
  · intro b hb hok
    refine ⟨writeH_ok_n (respOrNew r) b hok, ?_⟩
    refine ⟨{ (writeH (respOrNew r) b).2 with
        headers := headerSet (writeH (respOrNew r) b).2.headers "Content-Type" "application/protobuf",
        contentLength := ((writeH (respOrNew r) b).1.n : Int) }, ?_, ?_, rfl⟩
    · simp [encodeAsProtobuf, hb]
    · exact headerGet_headerSet _ _ _

def w7M : ProtoMessage := { marshal := .ok [1, 2, 3] }

def w7R : Response :=
  { resp := some (newHTTPResponse 200), error := none, request := none }

theorem encodeAsProtobuf_contract_witness :
    (w7M.marshal = Except.ok [1, 2, 3] ∧ (writeH (respOrNew w7R) [1, 2, 3]).1.err = none) ∧
    ((writeH (respOrNew w7R) [1, 2, 3]).1.n = ([1, 2, 3] : List Nat).length ∧
     ∃ h2, (encodeAsProtobuf w7R w7M).resp = some h2 ∧
       headerGet h2.headers "Content-Type" = "application/protobuf" ∧
       h2.contentLength = ((writeH (respOrNew w7R) [1, 2, 3]).1.n : Int)) :=
  ⟨⟨rfl, rfl⟩, (encodeAsProtobuf_contract w7R w7M).2 [1, 2, 3] rfl rfl⟩

lemma acceptsProtobuf_set_resp (r : Response) (x : Option HTTPResponse) :
    acceptsProtobuf { r with resp := x } = acceptsProtobuf r := rfl

/-- C8: For every value, Encode never raises; whenever the value routes to
the structured-text path (it is a proto.Message, a json.Marshaler, or no
reader at all, and it does not take the protobuf path because it is not a
proto.Message or the originating request does not accept
application/protobuf), a failure of the json encoding, or of the underlying
write it streams into, records the wrapped error in the error field and
leaves the headers unchanged (so no Content-Type is set); Content-Type is set
to application/json only on success. -/
theorem encode_json_contract (r : Response) (v : EncodeValue)
    (hpath : v.asProto.isSome = true ∨ v.isJSONMarshaler = true ∨
      v.readerKind = ReaderKind.notReader)
    (hnp : v.asProto = none ∨ acceptsProtobuf r = false) :
    (∀ e, v.jsonEnc = Except.error e →
      (encode r v).error = some (terrorsWrapWithCode e "internal_service") ∧
      ∃ h2, (encode r v).resp = some h2 ∧ h2.headers = (respOrNew r).headers) ∧
    (∀ bs e, v.jsonEnc = Except.ok bs → (writeH (respOrNew r) bs).1.err = some e →
      (encode r v).error = some (terrorsWrapWithCode e "internal_service") ∧
      ∃ h2, (encode r v).resp = some h2 ∧ h2.headers = (respOrNew r).headers) ∧
    (∀ bs, v.jsonEnc = Except.ok bs → (writeH (respOrNew r) bs).1.err = none →
      ∃ h2, (encode r v).resp = some h2 ∧
        headerGet h2.headers "Content-Type" = "application/json") := by
  have henc : encode r v = encodeJSON { r with resp := some (respOrNew r) } v := by
    cases hap : v.asProto with
    | some m =>
        have hf : acceptsProtobuf r = false := by
          cases hnp with
          | inl h => rw [hap] at h; cases h
          | inr h => exact h
        cases hresp : r.resp with
        | none =>
            simp [encode, encodeNegotiate, hap, respOrNew, hresp,
              acceptsProtobuf_set_resp, hf]
        | some h =>
            simp [encode, encodeNegotiate, hap, respOrNew, hresp,
              acceptsProtobuf_set_resp, hf]
            rw [← hresp]
    | none =>
        cases hjm : v.isJSONMarshaler with
        | true =>
            cases hresp : r.resp with
            | none => simp [encode, encodeNegotiate, hap, hjm, respOrNew, hresp]
            | some h =>
                simp [encode, encodeNegotiate, hap, hjm, respOrNew, hresp]
                rw [← hresp]
        | false =>
            have hk : v.readerKind = ReaderKind.notReader := by
              rcases hpath with h | h | h
              · rw [hap] at h; simp at h
              · rw [hjm] at h; simp at h
              · exact h
            cases hresp : r.resp with
            | none => simp [encode, encodeNegotiate, hap, hjm, hk, respOrNew, hresp]
            | some h =>
                simp [encode, encodeNegotiate, hap, hjm, hk, respOrNew, hresp]
                rw [← hresp]
  have hwr : write { r with resp := some (respOrNew r) } =
      fun bs => ((writeH (respOrNew r) bs).1,
        { r with resp := some (writeH (respOrNew r) bs).2 }) := by
    funext bs
    rw [write_resp_eq { r with resp := some (respOrNew r) } (respOrNew r) bs rfl]
  refine ⟨?_, ?_, ?_⟩
  · intro e he
    rw [henc]
    constructor
    · simp [encodeJSON, he, terrorsWrap]
    · exact ⟨respOrNew r, by simp [encodeJSON, he], rfl⟩
  · intro bs e hbs hwe
    rw [henc]
    constructor
    · simp [encodeJSON, hbs, hwr, hwe, terrorsWrap]
    · refine ⟨(writeH (respOrNew r) bs).2, ?_, writeH_headers (respOrNew r) bs⟩
      simp [encodeJSON, hbs, hwr, hwe]
  · intro bs hbs hwok
    rw [henc]
    refine ⟨{ (writeH (respOrNew r) bs).2 with
        headers := headerSet (writeH (respOrNew r) bs).2.headers "Content-Type" "application/json" },
      ?_, headerGet_headerSet _ _ _⟩
    simp [encodeJSON, hbs, hwr, hwok, mapResp]

def w8V : EncodeValue :=
  { asProto := some { marshal := .ok [1] }, isJSONMarshaler := false, readerKind := .notReader,
    jsonEnc := .error (.codecErr 5) }

def w8Req : Request := { headers := [("Accept", "application/json")], context := none }

def w8R : Response :=
  { resp := some (newHTTPResponse 200), error := none, request := some w8Req }

theorem encode_json_contract_witness :
    ((w8V.asProto.isSome = true ∨ w8V.isJSONMarshaler = true ∨
        w8V.readerKind = ReaderKind.notReader) ∧
     (w8V.asProto = none ∨ acceptsProtobuf w8R = false) ∧
     w8V.jsonEnc = Except.error (Err.codecErr 5)) ∧
    ((encode w8R w8V).error = some (terrorsWrapWithCode (Err.codecErr 5) "internal_service") ∧
     ∃ h2, (encode w8R w8V).resp = some h2 ∧ h2.headers = (respOrNew w8R).headers) :=
  ⟨⟨Or.inl rfl, Or.inr (by decide), rfl⟩,
   (encode_json_contract w8R w8V (Or.inl rfl) (Or.inr (by decide))).1 (Err.codecErr 5) rfl⟩

/-- C9: After a successful marshal, EncodeAsProtobuf unconditionally
overwrites the error field with the wrapped result of the write; in
particular, whatever error was previously recorded, when the write succeeds
the error field ends up nil again. -/
theorem encodeAsProtobuf_overwrites_error (r : Response) (m : ProtoMessage) (b : List Nat)
    (hm : m.marshal = Except.ok b) :
    (encodeAsProtobuf r m).error = terrorsWrap (writeH (respOrNew r) b).1.err ∧
    ((writeH (respOrNew r) b).1.err = none → (encodeAsProtobuf r m).error = none) := by
  have h1 : (encodeAsProtobuf r m).error = terrorsWrap (writeH (respOrNew r) b).1.err := by
    simp [encodeAsProtobuf, hm]
  exact ⟨h1, fun hok => by rw [h1, hok]; rfl⟩

def w9M : ProtoMessage := { marshal := .ok [8] }

def w9R : Response :=
  { resp := some (newHTTPResponse 200), error := some (.ioErr 12), request := none }

theorem encodeAsProtobuf_overwrites_error_witness :
    w9M.marshal = Except.ok [8] ∧
    ((encodeAsProtobuf w9R w9M).error = terrorsWrap (writeH (respOrNew w9R) [8]).1.err ∧
     ((writeH (respOrNew w9R) [8]).1.err = none → (encodeAsProtobuf w9R w9M).error = none)) :=
  ⟨rfl, encodeAsProtobuf_overwrites_error w9R w9M [8] rfl⟩

end Typhon
